import Mathlib

/-!
Shallow embedding of the fixed-window rate limiter
(`Task 3/Source Code/rate_limiter.py`) and proofs about its behaviour.

The store `self.user_requests` is a `defaultdict(lambda: (0, 0))` mapping
`user_id` to a `(window_start, request_count)` tuple; we model it as an
insertion-ordered association list, reads through the defaultdict insert the
default value for an absent key, and writes replace the value in place for a
present key or append a new entry for an absent one (Python dict semantics).
Wall-clock time (`time.time()`) is passed explicitly as a rational parameter.
-/

namespace RateLimit

/-- Configuration frozen at construction: `max_requests` and `window_size`
(both Python ints, validated strictly positive by `__init__`). -/
structure Config where
  maxRequests : ℤ
  windowSize : ℚ
deriving Repr, DecidableEq

/-- State tracked per key: `(window_start_timestamp, request_count)`. -/
abbrev WindowState := ℚ × ℤ

/-- The store `self.user_requests`, as an insertion-ordered association list. -/
abbrev Store := List (String × WindowState)

/-- `RateLimiter.__init__`: validates the configuration, raising `ValueError`
(modelled as `Except.error`) when `max_requests <= 0` or `window_size <= 0`;
on success the limiter starts with the given frozen config (and empty store). -/
def mkRateLimiter (max_requests : ℤ) (window_size : ℚ) : Except String Config :=
  if max_requests ≤ 0 then Except.error "max_requests must be greater than 0"
  else if window_size ≤ 0 then Except.error "window_size must be greater than 0"
  else Except.ok ⟨max_requests, window_size⟩

/-- First-match association-list lookup (Python `dict` access, sans default). -/
def alookup {β : Type} : List (String × β) → String → Option β
  | [], _ => none
  | (k', v) :: rest, k => if k' = k then some v else alookup rest k

/-- Value a defaultdict read yields for `k`: the stored value, else `(0, 0)`. -/
def lookupD (s : Store) (k : String) : WindowState :=
  (alookup s k).getD (0, 0)

/-- Read of `self.user_requests[user_id]` on the defaultdict: returns the
value together with the store, which gains a `(0, 0)` entry when absent. -/
def dget (s : Store) (k : String) : WindowState × Store :=
  match alookup s k with
  | some v => (v, s)
  | none => ((0, 0), s ++ [(k, (0, 0))])

/-- Assignment `self.user_requests[user_id] = v`: replace in place when the
key is present, append otherwise (Python dicts keep insertion order). -/
def dset (s : Store) (k : String) (v : WindowState) : Store :=
  match s with
  | [] => [(k, v)]
  | (k', v') :: rest => if k' = k then (k, v) :: rest else (k', v') :: dset rest k v

/-- `RateLimiter.is_allowed(user_id)` at clock reading `now`: reads the
window state (defaultdict insert on miss), resets and writes back
`(now, 0)` when `now - window_start >= window_size`, then admits and
increments iff `request_count < max_requests`; on denial nothing is written.
Returns the boolean result and the store after the call. -/
def is_allowed (cfg : Config) (now : ℚ) (s : Store) (user_id : String) : Bool × Store :=
  let g := dget s user_id
  if cfg.windowSize ≤ now - g.1.1 then
    -- window expired: reset (now, 0) is stored, then count 0 is checked
    if 0 < cfg.maxRequests then
      (true, dset (dset g.2 user_id (now, 0)) user_id (now, 1))
    else
      (false, dset g.2 user_id (now, 0))
  else
    if g.1.2 < cfg.maxRequests then
      (true, dset g.2 user_id (g.1.1, g.1.2 + 1))
    else
      (false, g.2)

/-- Python `round` to an integer: round half to even (banker's rounding). -/
def roundHalfEven (q : ℚ) : ℤ :=
  if q - ⌊q⌋ < 1 / 2 then ⌊q⌋
  else if 1 / 2 < q - ⌊q⌋ then ⌊q⌋ + 1
  else if Even ⌊q⌋ then ⌊q⌋ else ⌊q⌋ + 1

/-- Python `round(q, 2)`. -/
def round2 (q : ℚ) : ℚ := (roundHalfEven (100 * q) : ℚ) / 100

/-- The dictionary `RateLimiter.get_status` returns. -/
structure StatusReport where
  user_id : String
  requests_made : ℤ
  requests_remaining : ℤ
  window_start : ℚ
  time_until_reset : ℚ
  limit : ℤ
  window_size : ℚ
deriving Repr, DecidableEq

/-- `RateLimiter.get_status(user_id)` at clock reading `now`: reads the
window state (defaultdict insert on miss) and, when the window has expired,
recomputes `window_start := now`, `request_count := 0` in local variables
only — the reset is not assigned back into `self.user_requests`. Returns
the report and the store after the call. -/
def get_status (cfg : Config) (now : ℚ) (s : Store) (user_id : String) :
    StatusReport × Store :=
  let g := dget s user_id
  let ws := if cfg.windowSize ≤ now - g.1.1 then now else g.1.1
  let rc : ℤ := if cfg.windowSize ≤ now - g.1.1 then 0 else g.1.2
  ({ user_id := user_id
     requests_made := rc
     requests_remaining := cfg.maxRequests - rc
     window_start := ws
     time_until_reset := round2 (cfg.windowSize - (now - ws))
     limit := cfg.maxRequests
     window_size := cfg.windowSize }, g.2)

/-- `RateLimiter.reset_user(user_id)`: `self.user_requests[user_id] = (0, 0)`. -/
def reset_user (s : Store) (user_id : String) : Store :=
  dset s user_id (0, 0)

/-- `RateLimiter.reset_all()`: `self.user_requests.clear()`. -/
def reset_all (_s : Store) : Store := []

/-- One entry of the dictionary `RateLimiter.get_all_users_status` returns. -/
structure BulkStatus where
  requests_made : ℤ
  requests_remaining : ℤ
  time_until_reset : ℚ
deriving Repr, DecidableEq

/-- `RateLimiter.get_all_users_status()` at clock reading `now`: a dict
comprehension over the stored items, computed from the stored tuples with no
expiry check and no write; the store is returned unchanged. -/
def get_all_users_status (cfg : Config) (now : ℚ) (s : Store) :
    List (String × BulkStatus) × Store :=
  (s.map (fun e =>
    (e.1,
     { requests_made := e.2.2
       requests_remaining := cfg.maxRequests - e.2.2
       time_until_reset := round2 (cfg.windowSize - (now - e.2.1)) })), s)

/-- A run of timed `is_allowed` calls: returns the trace of
`(key, time, result)` events and the final store. -/
def runA (cfg : Config) : List (String × ℚ) → Store → List (String × ℚ × Bool) × Store
  | [], s => ([], s)
  | (k, t) :: ops, s =>
      let r := is_allowed cfg t s k
      let q := runA cfg ops r.2
      ((k, t, r.1) :: q.1, q.2)

/-- One operation of the limiter's public interface, timestamped where the
operation reads the clock. -/
inductive Op where
  | allow (k : String) (t : ℚ)
  | getStat (k : String) (t : ℚ)
  | resetU (k : String)
  | resetA
  | statAll (t : ℚ)

/-- Effect of one operation on the store (outputs discarded). -/
def stepOp (cfg : Config) (o : Op) (s : Store) : Store :=
  match o with
  | .allow k t => (is_allowed cfg t s k).2
  | .getStat k t => (get_status cfg t s k).2
  | .resetU k => reset_user s k
  | .resetA => reset_all s
  | .statAll t => (get_all_users_status cfg t s).2

/-- Run a sequence of operations against the store. -/
def runOps (cfg : Config) (ops : List Op) (s : Store) : Store :=
  ops.foldl (fun st o => stepOp cfg o st) s

/-- Number of `true` events for key `k` in a trace whose time is `≥ w`. -/
def cntGe : List (String × ℚ × Bool) → String → ℚ → ℕ
  | [], _, _ => 0
  | (k', t, b) :: rest, k, w =>
      (if k' = k ∧ b = true ∧ w ≤ t then 1 else 0) + cntGe rest k w

/-- Number of `true` events for key `k` in a trace whose time lies in the
window `[w, w + width)`. -/
def cntWin : List (String × ℚ × Bool) → String → ℚ → ℚ → ℕ
  | [], _, _, _ => 0
  | (k', t, b) :: rest, k, w, width =>
      (if k' = k ∧ b = true ∧ w ≤ t ∧ t < w + width then 1 else 0) + cntWin rest k w width

/-- The sub-trace of events carrying key `k`. -/
def tracesFor (k : String) (tr : List (String × ℚ × Bool)) : List (ℚ × Bool) :=
  match tr with
  | [] => []
  | (k', t, b) :: rest =>
      if k' = k then (t, b) :: tracesFor k rest else tracesFor k rest

end RateLimit

namespace RateLimit

theorem alookup_dset_self (s : Store) (k : String) (v : WindowState) :
    alookup (dset s k v) k = some v := by
  induction s with
  | nil => simp [dset, alookup]
  | cons e rest ih =>
      obtain ⟨k', v'⟩ := e
      by_cases h : k' = k
      · simp [dset, h, alookup]
      · simp [dset, h, alookup, ih]

theorem alookup_dset_ne (s : Store) (k j : String) (v : WindowState) (h : j ≠ k) :
    alookup (dset s k v) j = alookup s j := by
  have hkj : ¬ k = j := fun hh => h hh.symm
  induction s with
  | nil => simp [dset, alookup, hkj]
  | cons e rest ih =>
      obtain ⟨k', v'⟩ := e
      by_cases hk : k' = k
      · subst hk
        simp [dset, alookup, hkj]
      · by_cases hj : k' = j
        · subst hj
          simp [dset, hk, alookup]
        · simp [dset, hk, alookup, hj, ih]

theorem alookup_append_ne {β : Type} (s : List (String × β)) (k j : String) (v : β)
    (h : j ≠ k) : alookup (s ++ [(k, v)]) j = alookup s j := by
  have hkj : ¬ k = j := fun hh => h hh.symm
  induction s with
  | nil => simp [alookup, hkj]
  | cons e rest ih =>
      obtain ⟨k', v'⟩ := e
      by_cases hj : k' = j
      · simp [alookup, hj]
      · simp [alookup, hj, ih]

theorem alookup_dget_ne (s : Store) (k j : String) (h : j ≠ k) :
    alookup (dget s k).2 j = alookup s j := by
  unfold dget
  cases hl : alookup s k with
  | some v => simp
  | none => simpa using alookup_append_ne s k j (0, 0) h

theorem alookup_dget_self (s : Store) (k : String) :
    alookup (dget s k).2 k = some (dget s k).1 := by
  unfold dget
  cases hl : alookup s k with
  | some v => simpa using hl
  | none =>
      simp only
      induction s with
      | nil => simp [alookup]
      | cons e rest ih =>
          obtain ⟨k', v'⟩ := e
          by_cases hk : k' = k
          · simp [alookup, hk] at hl
          · simp [alookup, hk] at hl ⊢
            exact ih hl

theorem dget_absent (s : Store) (k : String) (h : alookup s k = none) :
    dget s k = ((0, 0), s ++ [(k, (0, 0))]) := by
  simp [dget, h]

theorem dget_present (s : Store) (k : String) (v : WindowState)
    (h : alookup s k = some v) : dget s k = (v, s) := by
  simp [dget, h]

theorem dset_absent (s : Store) (k : String) (v : WindowState)
    (h : alookup s k = none) : dset s k v = s ++ [(k, v)] := by
  induction s with
  | nil => simp [dset]
  | cons e rest ih =>
      obtain ⟨k', v'⟩ := e
      by_cases hk : k' = k
      · simp [alookup, hk] at h
      · simp [alookup, hk] at h
        simp [dset, hk, ih h]

theorem dset_dset (s : Store) (k : String) (v w : WindowState) :
    dset (dset s k v) k w = dset s k w := by
  induction s with
  | nil => simp [dset]
  | cons e rest ih =>
      obtain ⟨k', v'⟩ := e
      by_cases hk : k' = k
      · simp [dset, hk]
      · simp [dset, hk, ih]

theorem alookup_mem (s : Store) (k : String) (v : WindowState)
    (h : alookup s k = some v) : (k, v) ∈ s := by
  induction s with
  | nil => simp [alookup] at h
  | cons e rest ih =>
      obtain ⟨k', v'⟩ := e
      by_cases hk : k' = k
      · subst hk
        simp [alookup] at h
        simp [h]
      · simp [alookup, hk] at h
        exact List.mem_cons_of_mem _ (ih h)

theorem mem_dset (s : Store) (k : String) (v : WindowState) (q : String × WindowState)
    (h : q ∈ dset s k v) : q ∈ s ∨ q = (k, v) := by
  induction s with
  | nil => simp [dset] at h; simp [h]
  | cons e rest ih =>
      obtain ⟨k', v'⟩ := e
      by_cases hk : k' = k
      · simp [dset, hk] at h
        rcases h with h | h
        · right; simp [h]
        · left; exact List.mem_cons_of_mem _ h
      · simp [dset, hk] at h
        rcases h with h | h
        · left; simp [h]
        · rcases ih h with hh | hh
          · left; exact List.mem_cons_of_mem _ hh
          · right; exact hh

theorem mem_dget (s : Store) (k : String) (q : String × WindowState)
    (h : q ∈ (dget s k).2) : q ∈ s ∨ q = (k, (0, 0)) := by
  unfold dget at h
  cases hl : alookup s k with
  | some v => rw [hl] at h; exact Or.inl h
  | none =>
      rw [hl] at h
      simp at h
      rcases h with h | h
      · exact Or.inl h
      · right; simp [h]

theorem dget_fst (s : Store) (k : String) : (dget s k).1 = lookupD s k := by
  unfold dget lookupD
  cases alookup s k <;> simp

theorem isAllowed_reset (cfg : Config) (now : ℚ) (s : Store) (k : String)
    (hm : 0 < cfg.maxRequests)
    (hexp : cfg.windowSize ≤ now - (lookupD s k).1) :
    is_allowed cfg now s k = (true, dset (dget s k).2 k (now, 1)) := by
  unfold is_allowed
  simp [dget_fst, hexp, hm, dset_dset]

theorem isAllowed_hit (cfg : Config) (now : ℚ) (s : Store) (k : String)
    (hnot : ¬ (cfg.windowSize ≤ now - (lookupD s k).1))
    (hlt : (lookupD s k).2 < cfg.maxRequests) :
    is_allowed cfg now s k =
      (true, dset (dget s k).2 k ((lookupD s k).1, (lookupD s k).2 + 1)) := by
  unfold is_allowed
  simp [dget_fst, hnot, hlt]

theorem isAllowed_deny (cfg : Config) (now : ℚ) (s : Store) (k : String)
    (hnot : ¬ (cfg.windowSize ≤ now - (lookupD s k).1))
    (hge : ¬ ((lookupD s k).2 < cfg.maxRequests)) :
    is_allowed cfg now s k = (false, (dget s k).2) := by
  unfold is_allowed
  simp [dget_fst, hnot, hge]

/-- CLAIM C5: construction fails (with the `ValueError` channel) exactly when
`max_requests <= 0` or `window_size <= 0`, and on success the limiter holds
precisely the given positive configuration; all other operations of the
embedding are total functions of store and key, so they fail on no input. -/
theorem spec_c5 (m w : ℤ) :
    ((∃ e, mkRateLimiter m w = Except.error e) ↔ (m ≤ 0 ∨ w ≤ 0)) ∧
    (∀ cfg : Config, mkRateLimiter m w = Except.ok cfg →
      cfg.maxRequests = m ∧ cfg.windowSize = w ∧ 0 < m ∧ 0 < w) := by
  constructor
  · by_cases hm : m ≤ 0
    · simp [mkRateLimiter, hm]
    · by_cases hw : w ≤ 0
      · simp [mkRateLimiter, hm, hw]
      · simp [mkRateLimiter, hm, hw]
  · intro cfg hok
    unfold mkRateLimiter at hok
    by_cases hm : m ≤ 0
    · simp [hm] at hok
    · by_cases hw : w ≤ 0
      · simp [hm, hw] at hok
      · simp [hm, hw] at hok
        subst hok
        exact ⟨rfl, rfl, lt_of_not_le hm, lt_of_not_le hw⟩

/-- CLAIM C5 witness at concrete inputs. -/
theorem spec_c5_witness :
    ((∃ e, mkRateLimiter (-1) 60 = Except.error e) ↔ ((-1 : ℤ) ≤ 0 ∨ (60 : ℤ) ≤ 0)) ∧
    (Config.maxRequests ⟨5, 60⟩ = 5 ∧ Config.windowSize ⟨5, 60⟩ = 60 ∧
      (0 : ℤ) < 5 ∧ (0 : ℤ) < 60) := by
  refine ⟨(spec_c5 (-1) 60).1, ?_⟩
  exact (spec_c5 5 60).2 ⟨5, 60⟩ rfl

/-- CLAIM C8: `reset_user` unconditionally stores the fresh window `(0, 0)`
and is idempotent; after `reset_all`, a status query on any key reports
`requests_made = 0`. -/
theorem spec_c8 (s : Store) (k : String) :
    reset_user (reset_user s k) k = reset_user s k ∧
    alookup (reset_user s k) k = some (0, 0) ∧
    (∀ (cfg : Config) (now : ℚ) (j : String),
      (get_status cfg now (reset_all s) j).1.requests_made = 0) := by
  refine ⟨dset_dset s k (0, 0) (0, 0), alookup_dset_self s k (0, 0), ?_⟩
  intro cfg now j
  simp only [reset_all, get_status, dget, alookup]
  by_cases h : cfg.windowSize ≤ now - 0 <;> simp [h]

/-- CLAIM C8 witness: the statement instantiated at the empty store and
concrete keys and config. -/
theorem spec_c8_witness :
    reset_user (reset_user [] "a") "a" = reset_user [] "a" ∧
    alookup (reset_user [] "a") "a" = some (0, 0) ∧
    (get_status ⟨5, 60⟩ 0 (reset_all []) "b").1.requests_made = 0 := by
  have h := spec_c8 [] "a"
  exact ⟨h.1, h.2.1, h.2.2 ⟨5, 60⟩ 0 "b"⟩

/-- CLAIM C3: whenever the elapsed time since the key's recorded window start
(zero for an absent key) is at least the window size, `is_allowed` returns
true and stores `(now, 1)` for that key, whatever the prior count was. -/
theorem spec_c3 (cfg : Config) (hm : 0 < cfg.maxRequests) (now : ℚ) (s : Store)
    (k : String) (hexp : cfg.windowSize ≤ now - (lookupD s k).1) :
    (is_allowed cfg now s k).1 = true ∧
    alookup (is_allowed cfg now s k).2 k = some (now, 1) := by
  rw [isAllowed_reset cfg now s k hm hexp]
  exact ⟨rfl, alookup_dset_self _ _ _⟩

/-- CLAIM C3 witness: a key at count 3 of 5 whose window (started at 0) has
expired at time 60 is admitted and reset to `(60, 1)`. -/
theorem spec_c3_witness :
    (is_allowed ⟨5, 60⟩ 60 [("a", ((0 : ℚ), (3 : ℤ)))] "a").1 = true ∧
    alookup (is_allowed ⟨5, 60⟩ 60 [("a", ((0 : ℚ), (3 : ℤ)))] "a").2 "a" =
      some (60, 1) :=
  spec_c3 ⟨5, 60⟩ (by decide) 60 [("a", ((0 : ℚ), (3 : ℤ)))] "a"
    (by simp [lookupD, alookup])

/-- CLAIM C6: a denied `is_allowed` call commits no state change — the store
after the call is exactly the store before it. -/
theorem spec_c6 (cfg : Config) (hm : 0 < cfg.maxRequests) (now : ℚ) (s : Store)
    (k : String) (hden : (is_allowed cfg now s k).1 = false) :
    (is_allowed cfg now s k).2 = s := by
  by_cases hexp : cfg.windowSize ≤ now - (lookupD s k).1
  · rw [isAllowed_reset cfg now s k hm hexp] at hden
    simp at hden
  · by_cases hlt : (lookupD s k).2 < cfg.maxRequests
    · rw [isAllowed_hit cfg now s k hexp hlt] at hden
      simp at hden
    · rw [isAllowed_deny cfg now s k hexp hlt]
      cases hl : alookup s k with
      | some v => simp [dget, hl]
      | none =>
          exfalso
          apply hlt
          simp [lookupD, hl]
          exact hm

/-- CLAIM C6 witness: at the limit (count 1 of 1) inside a live window the
call is denied and the store is unchanged. -/
theorem spec_c6_witness :
    (is_allowed ⟨1, 60⟩ 5 [("a", ((0 : ℚ), (1 : ℤ)))] "a").1 = false ∧
    (is_allowed ⟨1, 60⟩ 5 [("a", ((0 : ℚ), (1 : ℤ)))] "a").2 =
      [("a", ((0 : ℚ), (1 : ℤ)))] := by
  have hden : (is_allowed ⟨1, 60⟩ 5 [("a", ((0 : ℚ), (1 : ℤ)))] "a").1 = false := by
    rw [isAllowed_deny] <;> norm_num [lookupD, alookup]
  exact ⟨hden, spec_c6 ⟨1, 60⟩ (by decide) 5 [("a", ((0 : ℚ), (1 : ℤ)))] "a" hden⟩

theorem getStatus_expired_report (cfg : Config) (now : ℚ) (s : Store) (k : String)
    (ws : ℚ) (rc : ℤ) (hl : alookup s k = some (ws, rc))
    (hexp : cfg.windowSize ≤ now - ws) :
    (get_status cfg now s k).1.requests_made = 0 ∧
    (get_status cfg now s k).1.window_start = now ∧
    (get_status cfg now s k).1.requests_remaining = cfg.maxRequests ∧
    (get_status cfg now s k).2 = s ∧
    alookup (get_status cfg now s k).2 k = some (ws, rc) := by
  have hg : dget s k = ((ws, rc), s) := dget_present s k _ hl
  unfold get_status
  rw [hg]
  simp [hexp, hl]

/-- CLAIM C1 (amended): when the stored window of a present key has expired,
`get_status` reports the fresh window (count 0, window start `now`, full
remaining quota), but the reset is not written back — the store keeps the
stale entry unchanged. -/
theorem spec_c1 (cfg : Config) (now : ℚ) (s : Store) (k : String) (ws : ℚ) (rc : ℤ)
    (hl : alookup s k = some (ws, rc))
    (hexp : cfg.windowSize ≤ now - ws) :
    (get_status cfg now s k).1.requests_made = 0 ∧
    (get_status cfg now s k).1.window_start = now ∧
    (get_status cfg now s k).1.requests_remaining = cfg.maxRequests ∧
    (get_status cfg now s k).2 = s ∧
    alookup (get_status cfg now s k).2 k = some (ws, rc) :=
  getStatus_expired_report cfg now s k ws rc hl hexp

/-- CLAIM C1 witness: key "a" stored as `(0, 3)` under a 60-second window,
queried at time 60. -/
theorem spec_c1_witness :
    (get_status ⟨5, 60⟩ 60 [("a", ((0 : ℚ), (3 : ℤ)))] "a").1.requests_made = 0 ∧
    (get_status ⟨5, 60⟩ 60 [("a", ((0 : ℚ), (3 : ℤ)))] "a").1.window_start = 60 ∧
    (get_status ⟨5, 60⟩ 60 [("a", ((0 : ℚ), (3 : ℤ)))] "a").1.requests_remaining = 5 ∧
    (get_status ⟨5, 60⟩ 60 [("a", ((0 : ℚ), (3 : ℤ)))] "a").2 =
      [("a", ((0 : ℚ), (3 : ℤ)))] ∧
    alookup (get_status ⟨5, 60⟩ 60 [("a", ((0 : ℚ), (3 : ℤ)))] "a").2 "a" =
      some (0, 3) :=
  spec_c1 ⟨5, 60⟩ 60 [("a", ((0 : ℚ), (3 : ℤ)))] "a" 0 3
    (by simp [alookup]) (by norm_num)

/-- CLAIM C1 counterexample: for key "a" stored as `(0, 3)` and queried at
time 60 (window expired), the report shows the fresh window `(60, 0)`, yet
the store still holds `(0, 3)` — the reset is not persisted, contradicting
the claim that the stored entry equals the reported fresh state. -/
theorem spec_c1_counterexample :
    (get_status ⟨5, 60⟩ 60 [("a", ((0 : ℚ), (3 : ℤ)))] "a").1.requests_made = 0 ∧
    (get_status ⟨5, 60⟩ 60 [("a", ((0 : ℚ), (3 : ℤ)))] "a").1.window_start = 60 ∧
    alookup (get_status ⟨5, 60⟩ 60 [("a", ((0 : ℚ), (3 : ℤ)))] "a").2 "a" =
      some (0, 3) ∧
    alookup (get_status ⟨5, 60⟩ 60 [("a", ((0 : ℚ), (3 : ℤ)))] "a").2 "a" ≠
      some ((get_status ⟨5, 60⟩ 60 [("a", ((0 : ℚ), (3 : ℤ)))] "a").1.window_start,
            (get_status ⟨5, 60⟩ 60 [("a", ((0 : ℚ), (3 : ℤ)))] "a").1.requests_made) := by
  norm_num [get_status, dget, alookup, lookupD]

/-- CLAIM C10: touching an absent key with `get_status` or `reset_user`
inserts a `(0, 0)` entry for it, so the key then shows up in
`get_all_users_status` although `is_allowed` was never called for it. -/
theorem spec_c10 (cfg : Config) (now : ℚ) (s : Store) (k : String)
    (habs : alookup s k = none) :
    (get_status cfg now s k).2 = s ++ [(k, (0, 0))] ∧
    reset_user s k = s ++ [(k, (0, 0))] ∧
    List.map Prod.fst (get_all_users_status cfg now ((get_status cfg now s k).2)).1 =
      List.map Prod.fst s ++ [k] := by
  have h2 : (get_status cfg now s k).2 = s ++ [(k, (0, 0))] := by
    unfold get_status
    rw [dget_absent s k habs]
  refine ⟨h2, dset_absent s k (0, 0) habs, ?_⟩
  rw [h2]
  simp [get_all_users_status]

/-- CLAIM C10 witness: querying the never-seen key "b" on a store holding
only "a" appends a `(0, 0)` entry for "b". -/
theorem spec_c10_witness :
    (get_status ⟨5, 60⟩ 7 [("a", ((0 : ℚ), (2 : ℤ)))] "b").2 =
      [("a", ((0 : ℚ), (2 : ℤ))), ("b", ((0 : ℚ), (0 : ℤ)))] ∧
    reset_user [("a", ((0 : ℚ), (2 : ℤ)))] "b" =
      [("a", ((0 : ℚ), (2 : ℤ))), ("b", ((0 : ℚ), (0 : ℤ)))] ∧
    List.map Prod.fst
      (get_all_users_status ⟨5, 60⟩ 7
        ((get_status ⟨5, 60⟩ 7 [("a", ((0 : ℚ), (2 : ℤ)))] "b").2)).1 =
      List.map Prod.fst [("a", ((0 : ℚ), (2 : ℤ)))] ++ ["b"] :=
  spec_c10 ⟨5, 60⟩ 7 [("a", ((0 : ℚ), (2 : ℤ)))] "b" (by simp [alookup])

theorem alookup_map_val {β : Type} (g : String → WindowState → β) :
    ∀ (s : Store) (k : String),
      alookup (s.map (fun e => (e.1, g e.1 e.2))) k = Option.map (g k) (alookup s k) := by
  intro s k
  induction s with
  | nil => simp [alookup]
  | cons e rest ih =>
      obtain ⟨k', v⟩ := e
      by_cases hk : k' = k
      · subst hk
        simp [alookup]
      · simp [alookup, hk, ih]

/-- CLAIM C7: `get_all_users_status` leaves the store untouched and reports,
for exactly the stored keys, values computed from the stored tuples with no
expiry reset; hence on an expired window it reports the stale count while
`get_status` on the same key reports the fresh window. -/
theorem spec_c7 (cfg : Config) (now : ℚ) (s : Store) (k : String) (ws : ℚ) (rc : ℤ)
    (hl : alookup s k = some (ws, rc))
    (hexp : cfg.windowSize ≤ now - ws) :
    (get_all_users_status cfg now s).2 = s ∧
    List.map Prod.fst (get_all_users_status cfg now s).1 = List.map Prod.fst s ∧
    alookup (get_all_users_status cfg now s).1 k =
      some { requests_made := rc
             requests_remaining := cfg.maxRequests - rc
             time_until_reset := round2 (cfg.windowSize - (now - ws)) } ∧
    (get_status cfg now s k).1.requests_made = 0 ∧
    (get_status cfg now s k).1.requests_remaining = cfg.maxRequests := by
  have hmap := alookup_map_val
    (fun _ v => ({ requests_made := v.2
                   requests_remaining := cfg.maxRequests - v.2
                   time_until_reset := round2 (cfg.windowSize - (now - v.1)) }
                 : BulkStatus)) s k
  have hc1 := getStatus_expired_report cfg now s k ws rc hl hexp
  refine ⟨rfl, by simp [get_all_users_status], ?_, hc1.1, hc1.2.2.1⟩
  unfold get_all_users_status
  simp only
  rw [hmap, hl]
  rfl

theorem runA_cons (cfg : Config) (k : String) (t : ℚ) (ops : List (String × ℚ))
    (s : Store) :
    runA cfg ((k, t) :: ops) s =
      ((k, t, (is_allowed cfg t s k).1) ::
         (runA cfg ops (is_allowed cfg t s k).2).1,
       (runA cfg ops (is_allowed cfg t s k).2).2) := rfl

theorem isAllowed_resetDeny (cfg : Config) (now : ℚ) (s : Store) (k : String)
    (hm : ¬ 0 < cfg.maxRequests)
    (hexp : cfg.windowSize ≤ now - (lookupD s k).1) :
    is_allowed cfg now s k = (false, dset (dget s k).2 k (now, 0)) := by
  unfold is_allowed
  simp [dget_fst, hexp, hm]

theorem isAllowed_alookup_ne (cfg : Config) (t : ℚ) (s : Store) (j k : String)
    (hne : k ≠ j) : alookup (is_allowed cfg t s j).2 k = alookup s k := by
  have hg : alookup (dget s j).2 k = alookup s k := alookup_dget_ne s j k hne
  by_cases hexp : cfg.windowSize ≤ t - (lookupD s j).1
  · by_cases hm : 0 < cfg.maxRequests
    · rw [isAllowed_reset cfg t s j hm hexp]
      simp only
      rw [alookup_dset_ne _ _ _ _ hne, hg]
    · rw [isAllowed_resetDeny cfg t s j hm hexp]
      simp only
      rw [alookup_dset_ne _ _ _ _ hne, hg]
  · by_cases hlt : (lookupD s j).2 < cfg.maxRequests
    · rw [isAllowed_hit cfg t s j hexp hlt]
      simp only
      rw [alookup_dset_ne _ _ _ _ hne, hg]
    · rw [isAllowed_deny cfg t s j hexp hlt]
      exact hg

theorem lookupD_isAllowed_ne (cfg : Config) (t : ℚ) (s : Store) (j k : String)
    (hne : k ≠ j) : lookupD (is_allowed cfg t s j).2 k = lookupD s k := by
  unfold lookupD
  rw [isAllowed_alookup_ne cfg t s j k hne]

theorem lookupD_dget_self (s : Store) (k : String) :
    lookupD (dget s k).2 k = lookupD s k := by
  unfold lookupD
  rw [alookup_dget_self, dget_fst]
  rfl

theorem isAllowed_congr (cfg : Config) (t : ℚ) (k : String) (s₁ s₂ : Store)
    (h : alookup s₁ k = alookup s₂ k) :
    (is_allowed cfg t s₁ k).1 = (is_allowed cfg t s₂ k).1 ∧
    alookup (is_allowed cfg t s₁ k).2 k = alookup (is_allowed cfg t s₂ k).2 k := by
  have hD : lookupD s₁ k = lookupD s₂ k := by unfold lookupD; rw [h]
  by_cases hexp : cfg.windowSize ≤ t - (lookupD s₁ k).1
  · by_cases hm : 0 < cfg.maxRequests
    · rw [isAllowed_reset cfg t s₁ k hm hexp,
          isAllowed_reset cfg t s₂ k hm (hD ▸ hexp)]
      simp [alookup_dset_self]
    · rw [isAllowed_resetDeny cfg t s₁ k hm hexp,
          isAllowed_resetDeny cfg t s₂ k hm (hD ▸ hexp)]
      simp [alookup_dset_self]
  · by_cases hlt : (lookupD s₁ k).2 < cfg.maxRequests
    · rw [isAllowed_hit cfg t s₁ k hexp hlt,
          isAllowed_hit cfg t s₂ k (hD ▸ hexp) (hD ▸ hlt)]
      simp [alookup_dset_self, hD]
    · rw [isAllowed_deny cfg t s₁ k hexp hlt,
          isAllowed_deny cfg t s₂ k (hD ▸ hexp) (hD ▸ hlt)]
      simp [alookup_dget_self, dget_fst, hD]

/-- CLAIM C9: calls for other keys never affect a key `b` — dropping every
event whose key differs from `b` changes neither `b`'s trace of results nor
`b`'s stored state; concretely, "alice" and "bob" interleaved each get five
admissions and then a denial under `max_requests = 5`. -/
theorem spec_c9 :
    (∀ (cfg : Config) (b : String) (ops : List (String × ℚ)) (s₁ s₂ : Store),
      alookup s₁ b = alookup s₂ b →
        tracesFor b (runA cfg ops s₁).1 =
          tracesFor b (runA cfg (ops.filter (fun o => o.1 = b)) s₂).1 ∧
        alookup (runA cfg ops s₁).2 b =
          alookup (runA cfg (ops.filter (fun o => o.1 = b)) s₂).2 b) ∧
    (List.map Prod.snd (tracesFor "alice"
        (runA ⟨5, 60⟩ [("alice", 0), ("bob", 0), ("alice", 0), ("bob", 0),
                       ("alice", 0), ("bob", 0), ("alice", 0), ("bob", 0),
                       ("alice", 0), ("bob", 0), ("alice", 0), ("bob", 0)] []).1) =
      [true, true, true, true, true, false] ∧
     List.map Prod.snd (tracesFor "bob"
        (runA ⟨5, 60⟩ [("alice", 0), ("bob", 0), ("alice", 0), ("bob", 0),
                       ("alice", 0), ("bob", 0), ("alice", 0), ("bob", 0),
                       ("alice", 0), ("bob", 0), ("alice", 0), ("bob", 0)] []).1) =
      [true, true, true, true, true, false]) := by
  constructor
  · intro cfg b ops
    induction ops with
    | nil => intro s₁ s₂ h; exact ⟨rfl, h⟩
    | cons o rest ih =>
        intro s₁ s₂ h
        obtain ⟨j, t⟩ := o
        by_cases hj : j = b
        · subst hj
          have hc := isAllowed_congr cfg t j s₁ s₂ h
          have hrec := ih (is_allowed cfg t s₁ j).2 (is_allowed cfg t s₂ j).2 hc.2
          have hfil : List.filter (fun o => decide (o.1 = j)) ((j, t) :: rest) =
              (j, t) :: List.filter (fun o => decide (o.1 = j)) rest := by
            simp [List.filter_cons]
          rw [hfil, runA_cons, runA_cons]
          simp only [tracesFor, if_pos rfl]
          rw [hc.1]
          exact ⟨by rw [hrec.1], hrec.2⟩
        · have hbj : b ≠ j := fun hh => hj hh.symm
          have hframe : alookup (is_allowed cfg t s₁ j).2 b = alookup s₂ b := by
            rw [isAllowed_alookup_ne cfg t s₁ j b hbj]; exact h
          have hrec := ih (is_allowed cfg t s₁ j).2 s₂ hframe
          have hfil : List.filter (fun o => decide (o.1 = b)) ((j, t) :: rest) =
              List.filter (fun o => decide (o.1 = b)) rest := by
            simp [List.filter_cons, hj]
          rw [hfil, runA_cons]
          simp only [tracesFor, if_neg hj]
          exact hrec
  · have e1 : is_allowed ⟨5, 60⟩ 0 [] "alice" =
        (true, [("alice", ((0 : ℚ), (1 : ℤ)))]) := by
      simp [is_allowed, dget, dset, alookup] <;> norm_num
    have e2 : is_allowed ⟨5, 60⟩ 0 [("alice", ((0 : ℚ), (1 : ℤ)))] "bob" =
        (true, [("alice", ((0 : ℚ), (1 : ℤ))), ("bob", ((0 : ℚ), (1 : ℤ)))]) := by
      simp [is_allowed, dget, dset, alookup] <;> norm_num
    have e3 : is_allowed ⟨5, 60⟩ 0
        [("alice", ((0 : ℚ), (1 : ℤ))), ("bob", ((0 : ℚ), (1 : ℤ)))] "alice" =
        (true, [("alice", ((0 : ℚ), (2 : ℤ))), ("bob", ((0 : ℚ), (1 : ℤ)))]) := by
      simp [is_allowed, dget, dset, alookup] <;> norm_num
    have e4 : is_allowed ⟨5, 60⟩ 0
        [("alice", ((0 : ℚ), (2 : ℤ))), ("bob", ((0 : ℚ), (1 : ℤ)))] "bob" =
        (true, [("alice", ((0 : ℚ), (2 : ℤ))), ("bob", ((0 : ℚ), (2 : ℤ)))]) := by
      simp [is_allowed, dget, dset, alookup] <;> norm_num
    have e5 : is_allowed ⟨5, 60⟩ 0
        [("alice", ((0 : ℚ), (2 : ℤ))), ("bob", ((0 : ℚ), (2 : ℤ)))] "alice" =
        (true, [("alice", ((0 : ℚ), (3 : ℤ))), ("bob", ((0 : ℚ), (2 : ℤ)))]) := by
      simp [is_allowed, dget, dset, alookup] <;> norm_num
    have e6 : is_allowed ⟨5, 60⟩ 0
        [("alice", ((0 : ℚ), (3 : ℤ))), ("bob", ((0 : ℚ), (2 : ℤ)))] "bob" =
        (true, [("alice", ((0 : ℚ), (3 : ℤ))), ("bob", ((0 : ℚ), (3 : ℤ)))]) := by
      simp [is_allowed, dget, dset, alookup] <;> norm_num
    have e7 : is_allowed ⟨5, 60⟩ 0
        [("alice", ((0 : ℚ), (3 : ℤ))), ("bob", ((0 : ℚ), (3 : ℤ)))] "alice" =
        (true, [("alice", ((0 : ℚ), (4 : ℤ))), ("bob", ((0 : ℚ), (3 : ℤ)))]) := by
      simp [is_allowed, dget, dset, alookup] <;> norm_num
    have e8 : is_allowed ⟨5, 60⟩ 0
        [("alice", ((0 : ℚ), (4 : ℤ))), ("bob", ((0 : ℚ), (3 : ℤ)))] "bob" =
        (true, [("alice", ((0 : ℚ), (4 : ℤ))), ("bob", ((0 : ℚ), (4 : ℤ)))]) := by
      simp [is_allowed, dget, dset, alookup] <;> norm_num
    have e9 : is_allowed ⟨5, 60⟩ 0
        [("alice", ((0 : ℚ), (4 : ℤ))), ("bob", ((0 : ℚ), (4 : ℤ)))] "alice" =
        (true, [("alice", ((0 : ℚ), (5 : ℤ))), ("bob", ((0 : ℚ), (4 : ℤ)))]) := by
      simp [is_allowed, dget, dset, alookup] <;> norm_num
    have e10 : is_allowed ⟨5, 60⟩ 0
        [("alice", ((0 : ℚ), (5 : ℤ))), ("bob", ((0 : ℚ), (4 : ℤ)))] "bob" =
        (true, [("alice", ((0 : ℚ), (5 : ℤ))), ("bob", ((0 : ℚ), (5 : ℤ)))]) := by
      simp [is_allowed, dget, dset, alookup] <;> norm_num
    have e11 : is_allowed ⟨5, 60⟩ 0
        [("alice", ((0 : ℚ), (5 : ℤ))), ("bob", ((0 : ℚ), (5 : ℤ)))] "alice" =
        (false, [("alice", ((0 : ℚ), (5 : ℤ))), ("bob", ((0 : ℚ), (5 : ℤ)))]) := by
      simp [is_allowed, dget, dset, alookup] <;> norm_num
    have e12 : is_allowed ⟨5, 60⟩ 0
        [("alice", ((0 : ℚ), (5 : ℤ))), ("bob", ((0 : ℚ), (5 : ℤ)))] "bob" =
        (false, [("alice", ((0 : ℚ), (5 : ℤ))), ("bob", ((0 : ℚ), (5 : ℤ)))]) := by
      simp [is_allowed, dget, dset, alookup] <;> norm_num
    constructor <;>
      simp [runA_cons, e1, e2, e3, e4, e5, e6, e7, e8, e9, e10, e11, e12, tracesFor]

/-- CLAIM C9 witness: the frame property instantiated at a concrete run with
equal starting stores. -/
theorem spec_c9_witness :
    tracesFor "a" (runA ⟨5, 60⟩ [("a", 0)] []).1 =
      tracesFor "a" (runA ⟨5, 60⟩ (List.filter (fun o => o.1 = "a") [("a", 0)]) []).1 ∧
    alookup (runA ⟨5, 60⟩ [("a", 0)] []).2 "a" =
      alookup (runA ⟨5, 60⟩ (List.filter (fun o => o.1 = "a") [("a", 0)]) []).2 "a" :=
  spec_c9.1 ⟨5, 60⟩ "a" [("a", 0)] [] [] rfl

/-- CLAIM C7 witness: key "a" stored as `(0, 3)` at time 60 — the bulk query
still reports 3 requests made while the single-key query reports 0. -/
theorem spec_c7_witness :
    (get_all_users_status ⟨5, 60⟩ 60 [("a", ((0 : ℚ), (3 : ℤ)))]).2 =
      [("a", ((0 : ℚ), (3 : ℤ)))] ∧
    List.map Prod.fst (get_all_users_status ⟨5, 60⟩ 60 [("a", ((0 : ℚ), (3 : ℤ)))]).1 =
      List.map Prod.fst [("a", ((0 : ℚ), (3 : ℤ)))] ∧
    alookup (get_all_users_status ⟨5, 60⟩ 60 [("a", ((0 : ℚ), (3 : ℤ)))]).1 "a" =
      some { requests_made := 3
             requests_remaining := (5 : ℤ) - 3
             time_until_reset := round2 ((60 : ℚ) - (60 - 0)) } ∧
    (get_status ⟨5, 60⟩ 60 [("a", ((0 : ℚ), (3 : ℤ)))] "a").1.requests_made = 0 ∧
    (get_status ⟨5, 60⟩ 60 [("a", ((0 : ℚ), (3 : ℤ)))] "a").1.requests_remaining = 5 :=
  spec_c7 ⟨5, 60⟩ 60 [("a", ((0 : ℚ), (3 : ℤ)))] "a" 0 3
    (by simp [alookup]) (by norm_num)

theorem lookupD_dset (s : Store) (k : String) (v : WindowState) :
    lookupD (dset s k v) k = v := by
  unfold lookupD
  rw [alookup_dset_self]
  rfl

theorem get_status_snd (cfg : Config) (now : ℚ) (s : Store) (k : String) :
    (get_status cfg now s k).2 = (dget s k).2 := rfl

theorem lookupD_bound (cfg : Config) (s : Store) (k : String)
    (hs : ∀ q ∈ s, 0 ≤ q.2.2 ∧ q.2.2 ≤ cfg.maxRequests) (hm : 0 ≤ cfg.maxRequests) :
    0 ≤ (lookupD s k).2 ∧ (lookupD s k).2 ≤ cfg.maxRequests := by
  unfold lookupD
  cases hl : alookup s k with
  | some v => simpa using hs (k, v) (alookup_mem s k v hl)
  | none => simpa using hm

theorem dget_store_bound (cfg : Config) (s : Store) (k : String)
    (hs : ∀ q ∈ s, 0 ≤ q.2.2 ∧ q.2.2 ≤ cfg.maxRequests) (hm : 0 ≤ cfg.maxRequests) :
    ∀ q ∈ (dget s k).2, 0 ≤ q.2.2 ∧ q.2.2 ≤ cfg.maxRequests := by
  intro q hq
  rcases mem_dget s k q hq with h | h
  · exact hs q h
  · rw [h]; simpa using hm

theorem isAllowed_store_bound (cfg : Config) (hm : 0 < cfg.maxRequests)
    (t : ℚ) (s : Store) (k : String)
    (hs : ∀ q ∈ s, 0 ≤ q.2.2 ∧ q.2.2 ≤ cfg.maxRequests) :
    ∀ q ∈ (is_allowed cfg t s k).2, 0 ≤ q.2.2 ∧ q.2.2 ≤ cfg.maxRequests := by
  have hdget := dget_store_bound cfg s k hs hm.le
  intro q hq
  by_cases hexp : cfg.windowSize ≤ t - (lookupD s k).1
  · rw [isAllowed_reset cfg t s k hm hexp] at hq
    simp only at hq
    rcases mem_dset _ _ _ _ hq with h | h
    · exact hdget q h
    · rw [h]
      exact ⟨by norm_num, hm⟩
  · by_cases hlt : (lookupD s k).2 < cfg.maxRequests
    · rw [isAllowed_hit cfg t s k hexp hlt] at hq
      simp only at hq
      rcases mem_dset _ _ _ _ hq with h | h
      · exact hdget q h
      · rw [h]
        have hge := (lookupD_bound cfg s k hs hm.le).1
        constructor
        · simp only
          linarith
        · simp only
          linarith
    · rw [isAllowed_deny cfg t s k hexp hlt] at hq
      exact hdget q hq

theorem stepOp_store_bound (cfg : Config) (hm : 0 < cfg.maxRequests) (o : Op)
    (s : Store) (hs : ∀ q ∈ s, 0 ≤ q.2.2 ∧ q.2.2 ≤ cfg.maxRequests) :
    ∀ q ∈ stepOp cfg o s, 0 ≤ q.2.2 ∧ q.2.2 ≤ cfg.maxRequests := by
  cases o with
  | allow k t => exact isAllowed_store_bound cfg hm t s k hs
  | getStat k t =>
      intro q hq
      rw [stepOp, get_status_snd] at hq
      exact dget_store_bound cfg s k hs hm.le q hq
  | resetU k =>
      intro q hq
      rw [stepOp, reset_user] at hq
      rcases mem_dset _ _ _ _ hq with h | h
      · exact hs q h
      · rw [h]; simpa using hm.le
  | resetA =>
      intro q hq
      simp [stepOp, reset_all] at hq
  | statAll t =>
      intro q hq
      exact hs q hq

theorem runOps_store_bound (cfg : Config) (hm : 0 < cfg.maxRequests) :
    ∀ (ops : List Op) (s : Store),
      (∀ q ∈ s, 0 ≤ q.2.2 ∧ q.2.2 ≤ cfg.maxRequests) →
      ∀ q ∈ runOps cfg ops s, 0 ≤ q.2.2 ∧ q.2.2 ≤ cfg.maxRequests := by
  intro ops
  induction ops with
  | nil => intro s hs; exact hs
  | cons o rest ih =>
      intro s hs
      exact ih (stepOp cfg o s) (stepOp_store_bound cfg hm o s hs)

theorem runA_store_bound (cfg : Config) (hm : 0 < cfg.maxRequests) :
    ∀ (ops : List (String × ℚ)) (s : Store),
      (∀ q ∈ s, 0 ≤ q.2.2 ∧ q.2.2 ≤ cfg.maxRequests) →
      ∀ q ∈ (runA cfg ops s).2, 0 ≤ q.2.2 ∧ q.2.2 ≤ cfg.maxRequests := by
  intro ops
  induction ops with
  | nil => intro s hs; exact hs
  | cons o rest ih =>
      intro s hs
      obtain ⟨k, t⟩ := o
      rw [runA_cons]
      exact ih (is_allowed cfg t s k).2 (isAllowed_store_bound cfg hm t s k hs)

theorem isAllowed_ws_mono (cfg : Config) (t : ℚ) (s : Store) (j k : String) :
    (lookupD (is_allowed cfg t s j).2 k).1 = (lookupD s k).1 ∨
    (lookupD s k).1 + cfg.windowSize ≤ (lookupD (is_allowed cfg t s j).2 k).1 := by
  by_cases hjk : k = j
  · subst hjk
    by_cases hexp : cfg.windowSize ≤ t - (lookupD s k).1
    · by_cases hm : 0 < cfg.maxRequests
      · rw [isAllowed_reset cfg t s k hm hexp]
        right
        simp only
        rw [lookupD_dset]
        linarith
      · rw [isAllowed_resetDeny cfg t s k hm hexp]
        right
        simp only
        rw [lookupD_dset]
        linarith
    · by_cases hlt : (lookupD s k).2 < cfg.maxRequests
      · rw [isAllowed_hit cfg t s k hexp hlt]
        left
        simp only
        rw [lookupD_dset]
      · rw [isAllowed_deny cfg t s k hexp hlt]
        left
        simp only
        rw [lookupD_dget_self]
  · left
    rw [lookupD_isAllowed_ne cfg t s j k hjk]

theorem runA_ws_mono (cfg : Config) (hw : 0 < cfg.windowSize) :
    ∀ (ops : List (String × ℚ)) (s : Store) (k : String),
      (lookupD (runA cfg ops s).2 k).1 = (lookupD s k).1 ∨
      (lookupD s k).1 + cfg.windowSize ≤ (lookupD (runA cfg ops s).2 k).1 := by
  intro ops
  induction ops with
  | nil => intro s k; left; rfl
  | cons o rest ih =>
      intro s k
      obtain ⟨j, t⟩ := o
      rw [runA_cons]
      simp only
      rcases isAllowed_ws_mono cfg t s j k with h1 | h1 <;>
        rcases ih (is_allowed cfg t s j).2 k with h2 | h2
      · left; rw [h2, h1]
      · right; rw [h1] at h2; exact h2
      · right; rw [h2]; exact h1
      · right; linarith

theorem cntWin_le_cntGe (tr : List (String × ℚ × Bool)) (k : String) (w width : ℚ) :
    cntWin tr k w width ≤ cntGe tr k w := by
  induction tr with
  | nil => exact le_refl 0
  | cons e rest ih =>
      obtain ⟨k', t, b⟩ := e
      simp only [cntWin, cntGe]
      have hh : (if k' = k ∧ b = true ∧ w ≤ t ∧ t < w + width then 1 else 0) ≤
          (if k' = k ∧ b = true ∧ w ≤ t then 1 else 0) := by
        split_ifs with hA hB
        · exact le_refl 1
        · exact absurd ⟨hA.1, hA.2.1, hA.2.2.1⟩ hB
        · omega
        · exact le_refl 0
      omega

theorem cntGe_cons (k' : String) (t : ℚ) (b : Bool) (rest : List (String × ℚ × Bool))
    (k : String) (w : ℚ) :
    cntGe ((k', t, b) :: rest) k w =
      (if k' = k ∧ b = true ∧ w ≤ t then 1 else 0) + cntGe rest k w := rfl

/-- Accounting invariant of a run of `is_allowed` calls: writing `(w, c)` for
the key's final stored state, the number of admissions in the trace at times
`≥ w` is at most `c` (minus the initial count when the window never moved).
Holds for arbitrary clock sequences because a window start only ever moves
forward, by at least the window size. -/
theorem runA_cnt (cfg : Config) (hm : 0 < cfg.maxRequests) (hw : 0 < cfg.windowSize) :
    ∀ (ops : List (String × ℚ)) (s : Store) (k : String),
      ((lookupD (runA cfg ops s).2 k).1 = (lookupD s k).1 →
        (cntGe (runA cfg ops s).1 k (lookupD (runA cfg ops s).2 k).1 : ℤ) ≤
          (lookupD (runA cfg ops s).2 k).2 - (lookupD s k).2) ∧
      ((lookupD (runA cfg ops s).2 k).1 ≠ (lookupD s k).1 →
        (cntGe (runA cfg ops s).1 k (lookupD (runA cfg ops s).2 k).1 : ℤ) ≤
          (lookupD (runA cfg ops s).2 k).2) := by
  intro ops
  induction ops with
  | nil =>
      intro s k
      constructor
      · intro _
        simp [runA, cntGe]
      · intro h
        exact absurd rfl h
  | cons o rest ih =>
      intro s k
      obtain ⟨j, t⟩ := o
      by_cases hjk : j = k
      · subst hjk
        by_cases hexp : cfg.windowSize ≤ t - (lookupD s j).1
        · -- head call finds the window expired: it admits and stores (t, 1)
          rw [runA_cons, isAllowed_reset cfg t s j hm hexp]
          simp only [cntGe_cons]
          have hB1 : (lookupD (dset (dget s j).2 j (t, 1)) j).1 = t := by
            rw [lookupD_dset]
          have hB2 : (lookupD (dset (dget s j).2 j (t, 1)) j).2 = 1 := by
            rw [lookupD_dset]
          have ihh := ih (dset (dget s j).2 j (t, 1)) j
          rw [hB1, hB2] at ihh
          rcases runA_ws_mono cfg hw rest (dset (dget s j).2 j (t, 1)) j with hA | hA
          · rw [hB1] at hA
            rw [hA] at ihh ⊢
            have hcnt := ihh.1 rfl
            constructor
            · intro h
              exfalso
              rw [h] at hexp
              linarith
            · intro _
              split_ifs with hc <;> push_cast <;> linarith
          · rw [hB1] at hA
            have hne : (lookupD (runA cfg rest (dset (dget s j).2 j (t, 1))).2 j).1 ≠ t := by
              intro hh
              rw [hh] at hA
              linarith
            have hcnt := ihh.2 hne
            constructor
            · intro h
              exfalso
              rw [h] at hA
              linarith
            · intro _
              split_ifs with hc
              · have hle := hc.2.2
                push_cast
                linarith
              · push_cast
                linarith
        · by_cases hlt : (lookupD s j).2 < cfg.maxRequests
          · -- head call admits inside the live window: count goes up by one
            rw [runA_cons, isAllowed_hit cfg t s j hexp hlt]
            simp only [cntGe_cons]
            have hB1 : (lookupD (dset (dget s j).2 j ((lookupD s j).1, (lookupD s j).2 + 1)) j).1 =
                (lookupD s j).1 := by
              rw [lookupD_dset]
            have hB2 : (lookupD (dset (dget s j).2 j ((lookupD s j).1, (lookupD s j).2 + 1)) j).2 =
                (lookupD s j).2 + 1 := by
              rw [lookupD_dset]
            have ihh := ih (dset (dget s j).2 j ((lookupD s j).1, (lookupD s j).2 + 1)) j
            rw [hB1, hB2] at ihh
            rcases runA_ws_mono cfg hw rest
                (dset (dget s j).2 j ((lookupD s j).1, (lookupD s j).2 + 1)) j with hA | hA
            · rw [hB1] at hA
              rw [hA] at ihh ⊢
              have hcnt := ihh.1 rfl
              constructor
              · intro _
                split_ifs with hc <;> push_cast <;> linarith
              · intro h
                exact absurd rfl h
            · rw [hB1] at hA
              have hne : (lookupD (runA cfg rest
                  (dset (dget s j).2 j ((lookupD s j).1, (lookupD s j).2 + 1))).2 j).1 ≠
                  (lookupD s j).1 := by
                intro hh
                rw [hh] at hA
                linarith
              have hcnt := ihh.2 hne
              have ht : t - (lookupD s j).1 < cfg.windowSize := lt_of_not_le hexp
              constructor
              · intro h
                exact absurd h hne
              · intro _
                split_ifs with hc
                · have hle := hc.2.2
                  push_cast
                  linarith
                · push_cast
                  linarith
          · -- head call is denied: nothing changes
            rw [runA_cons, isAllowed_deny cfg t s j hexp hlt]
            simp only [cntGe_cons]
            have hB : lookupD (dget s j).2 j = lookupD s j := lookupD_dget_self s j
            have ihh := ih (dget s j).2 j
            rw [hB] at ihh
            have hfalse : ¬ (True ∧ false = true ∧
                (lookupD (runA cfg rest (dget s j).2).2 j).1 ≤ t) := by
              simp
            rw [if_neg hfalse]
            constructor
            · intro h
              have hcnt := ihh.1 h
              push_cast
              linarith
            · intro h
              have hcnt := ihh.2 h
              push_cast
              linarith
      · -- head call is for a different key: k's state is untouched
        have hkj : k ≠ j := fun hh => hjk hh.symm
        have hB : lookupD (is_allowed cfg t s j).2 k = lookupD s k :=
          lookupD_isAllowed_ne cfg t s j k hkj
        rw [runA_cons]
        simp only [cntGe_cons]
        have ihh := ih (is_allowed cfg t s j).2 k
        rw [hB] at ihh
        have hfalse : ¬ (j = k ∧ (is_allowed cfg t s j).1 = true ∧
            (lookupD (runA cfg rest (is_allowed cfg t s j).2).2 k).1 ≤ t) :=
          fun hc => hjk hc.1
        rw [if_neg hfalse]
        constructor
        · intro h
          have hcnt := ihh.1 h
          push_cast
          linarith
        · intro h
          have hcnt := ihh.2 h
          push_cast
          linarith

/-- CLAIM C2 (amended): with a validated config, (a) after any sequence of
the five operations from a fresh store, every stored `WindowState` has
`0 ≤ request_count ≤ max_requests`; (b) for sequences consisting only of
`is_allowed` calls, the number of admissions whose time lies inside the
window `[w, w + window_size)` of any recorded window start `w` is at most
`max_requests`. (Interleaved resets can break (b): see the counterexample.) -/
theorem spec_c2 (cfg : Config) (hm : 0 < cfg.maxRequests) (hw : 0 < cfg.windowSize) :
    (∀ (ops : List Op), ∀ q ∈ runOps cfg ops [],
        0 ≤ q.2.2 ∧ q.2.2 ≤ cfg.maxRequests) ∧
    (∀ (ops : List (String × ℚ)) (k : String),
        (cntWin (runA cfg ops []).1 k (lookupD (runA cfg ops []).2 k).1
            cfg.windowSize : ℤ) ≤ cfg.maxRequests) := by
  constructor
  · intro ops q hq
    exact runOps_store_bound cfg hm ops [] (by simp) q hq
  · intro ops k
    have hstore := runA_store_bound cfg hm ops [] (by simp)
    have hbound : (lookupD (runA cfg ops []).2 k).2 ≤ cfg.maxRequests := by
      unfold lookupD
      cases hl : alookup (runA cfg ops []).2 k with
      | some v => simpa using (hstore (k, v) (alookup_mem _ _ _ hl)).2
      | none => simpa using hm.le
    have hcnt := runA_cnt cfg hm hw ops [] k
    have hge : (cntGe (runA cfg ops []).1 k (lookupD (runA cfg ops []).2 k).1 : ℤ) ≤
        (lookupD (runA cfg ops []).2 k).2 := by
      by_cases hcase : (lookupD (runA cfg ops []).2 k).1 = (lookupD ([] : Store) k).1
      · have hq := hcnt.1 hcase
        simpa [lookupD, alookup] using hq
      · exact hcnt.2 hcase
    have hww := cntWin_le_cntGe (runA cfg ops []).1 k
      (lookupD (runA cfg ops []).2 k).1 cfg.windowSize
    have hwz : (cntWin (runA cfg ops []).1 k (lookupD (runA cfg ops []).2 k).1
        cfg.windowSize : ℤ) ≤
        (cntGe (runA cfg ops []).1 k (lookupD (runA cfg ops []).2 k).1 : ℤ) := by
      exact_mod_cast hww
    linarith

/-- CLAIM C2 witness: a single admission under `max_requests = 5` leaves the
stored count 1 within bounds, and the windowed admission count is within the
limit. -/
theorem spec_c2_witness :
    (0 ≤ (("a", ((0 : ℚ), (1 : ℤ)))).2.2 ∧
      (("a", ((0 : ℚ), (1 : ℤ)))).2.2 ≤ Config.maxRequests ⟨5, 60⟩) ∧
    (cntWin (runA ⟨5, 60⟩ [("a", 0)] []).1 "a"
        (lookupD (runA ⟨5, 60⟩ [("a", 0)] []).2 "a").1
        (Config.windowSize ⟨5, 60⟩) : ℤ) ≤ Config.maxRequests ⟨5, 60⟩ := by
  constructor
  · refine (spec_c2 ⟨5, 60⟩ (by norm_num) (by norm_num)).1 [Op.allow "a" 0]
      ("a", ((0 : ℚ), (1 : ℤ))) ?_
    have hcomp : runOps ⟨5, 60⟩ [Op.allow "a" 0] [] = [("a", ((0 : ℚ), (1 : ℤ)))] := by
      simp [runOps, stepOp, is_allowed, dget, dset, alookup] <;> norm_num
    rw [hcomp]
    simp
  · exact (spec_c2 ⟨5, 60⟩ (by norm_num) (by norm_num)).2 [("a", 0)] "a"

/-- CLAIM C2 counterexample: with `max_requests = 1`, `window_size = 60`,
the sequence isAllowed("k") at time 5, resetUser("k"), isAllowed("k") at
time 6 admits twice; the recorded window start is 0 and both admissions
happened at times inside `[0, 60)`, so this one window saw 2 > 1 successful
`isAllowed` calls — the claimed bound fails once resets are interleaved. -/
theorem spec_c2_counterexample :
    (is_allowed ⟨1, 60⟩ 5 [] "k").1 = true ∧
    (is_allowed ⟨1, 60⟩ 6 (reset_user (is_allowed ⟨1, 60⟩ 5 [] "k").2 "k") "k").1 = true ∧
    (lookupD (is_allowed ⟨1, 60⟩ 6
        (reset_user (is_allowed ⟨1, 60⟩ 5 [] "k").2 "k") "k").2 "k").1 = 0 ∧
    ¬ ((cntWin [("k", (5 : ℚ), true), ("k", (6 : ℚ), true)] "k" 0 60 : ℤ) ≤
        Config.maxRequests ⟨1, 60⟩) := by
  have c1 : is_allowed ⟨1, 60⟩ 5 [] "k" = (true, [("k", ((0 : ℚ), (1 : ℤ)))]) := by
    simp [is_allowed, dget, dset, alookup] <;> norm_num
  have cr : reset_user [("k", ((0 : ℚ), (1 : ℤ)))] "k" = [("k", ((0 : ℚ), (0 : ℤ)))] := by
    simp [reset_user, dset]
  have c2 : is_allowed ⟨1, 60⟩ 6 [("k", ((0 : ℚ), (0 : ℤ)))] "k" =
      (true, [("k", ((0 : ℚ), (1 : ℤ)))]) := by
    simp [is_allowed, dget, dset, alookup] <;> norm_num
  refine ⟨by rw [c1], ?_, ?_, ?_⟩
  · rw [c1]
    simp only
    rw [cr, c2]
  · rw [c1]
    simp only
    rw [cr, c2]
    simp [lookupD, alookup]
  · intro hc
    have hcw : cntWin [("k", (5 : ℚ), true), ("k", (6 : ℚ), true)] "k" 0 60 = 2 := by
      simp [cntWin, show (0 : ℚ) ≤ 5 from by norm_num,
            show (0 : ℚ) ≤ 6 from by norm_num]
      norm_num
    rw [hcw] at hc
    norm_num at hc

/-- CLAIM C4 counterexample: under `max_requests = 5`, `window_size = 60`, a
fresh key called 7 times at clock readings 30, 31, 32, 33, 34, 61, 62 — all
within 60 seconds of the first call — is admitted all 7 times, because the
fresh key's default window starts at epoch 0 and expires at 60, in the middle
of the call burst; the claimed result list `[T,T,T,T,T,F,F]` is wrong. -/
theorem spec_c4_counterexample :
    List.map (fun e => e.2.2)
      (runA ⟨5, 60⟩ [("alice", 30), ("alice", 31), ("alice", 32), ("alice", 33),
                     ("alice", 34), ("alice", 61), ("alice", 62)] []).1 =
      [true, true, true, true, true, true, true] ∧
    ((62 : ℚ) - 30 < 60) ∧
    List.map (fun e => e.2.2)
      (runA ⟨5, 60⟩ [("alice", 30), ("alice", 31), ("alice", 32), ("alice", 33),
                     ("alice", 34), ("alice", 61), ("alice", 62)] []).1 ≠
      [true, true, true, true, true, false, false] := by
  have g1 : is_allowed ⟨5, 60⟩ 30 [] "alice" =
      (true, [("alice", ((0 : ℚ), (1 : ℤ)))]) := by
    simp [is_allowed, dget, dset, alookup] <;> norm_num
  have g2 : is_allowed ⟨5, 60⟩ 31 [("alice", ((0 : ℚ), (1 : ℤ)))] "alice" =
      (true, [("alice", ((0 : ℚ), (2 : ℤ)))]) := by
    simp [is_allowed, dget, dset, alookup] <;> norm_num
  have g3 : is_allowed ⟨5, 60⟩ 32 [("alice", ((0 : ℚ), (2 : ℤ)))] "alice" =
      (true, [("alice", ((0 : ℚ), (3 : ℤ)))]) := by
    simp [is_allowed, dget, dset, alookup] <;> norm_num
  have g4 : is_allowed ⟨5, 60⟩ 33 [("alice", ((0 : ℚ), (3 : ℤ)))] "alice" =
      (true, [("alice", ((0 : ℚ), (4 : ℤ)))]) := by
    simp [is_allowed, dget, dset, alookup] <;> norm_num
  have g5 : is_allowed ⟨5, 60⟩ 34 [("alice", ((0 : ℚ), (4 : ℤ)))] "alice" =
      (true, [("alice", ((0 : ℚ), (5 : ℤ)))]) := by
    simp [is_allowed, dget, dset, alookup] <;> norm_num
  have g6 : is_allowed ⟨5, 60⟩ 61 [("alice", ((0 : ℚ), (5 : ℤ)))] "alice" =
      (true, [("alice", ((61 : ℚ), (1 : ℤ)))]) := by
    simp [is_allowed, dget, dset, alookup] <;> norm_num
  have g7 : is_allowed ⟨5, 60⟩ 62 [("alice", ((61 : ℚ), (1 : ℤ)))] "alice" =
      (true, [("alice", ((61 : ℚ), (2 : ℤ)))]) := by
    simp [is_allowed, dget, dset, alookup] <;> norm_num
  refine ⟨?_, by norm_num, ?_⟩ <;>
    simp [runA, runA_cons, g1, g2, g3, g4, g5, g6, g7]

/-- CLAIM C4 (amended): with `max_requests = 5`, `window_size = 60` and a
fresh key, 7 consecutive calls whose times are nondecreasing, start at or
after clock 60 (so the first call opens a fresh window at its own time, as
with a real epoch clock) and all fall strictly inside that first call's
window, return exactly `[T,T,T,T,T,F,F]`, and `get_status` at the time of
the 5th call reports `requests_remaining = 0`. -/
theorem spec_c4 (t1 t2 t3 t4 t5 t6 t7 : ℚ) (h1 : 60 ≤ t1)
    (h12 : t1 ≤ t2) (h23 : t2 ≤ t3) (h34 : t3 ≤ t4) (h45 : t4 ≤ t5)
    (h56 : t5 ≤ t6) (h67 : t6 ≤ t7) (hwin : t7 < t1 + 60) :
    List.map (fun e => e.2.2)
      (runA ⟨5, 60⟩ [("alice", t1), ("alice", t2), ("alice", t3), ("alice", t4),
                     ("alice", t5), ("alice", t6), ("alice", t7)] []).1 =
      [true, true, true, true, true, false, false] ∧
    (get_status ⟨5, 60⟩ t5
      (runA ⟨5, 60⟩ [("alice", t1), ("alice", t2), ("alice", t3), ("alice", t4),
                     ("alice", t5)] []).2 "alice").1.requests_remaining = 0 := by
  have f1 : is_allowed ⟨5, 60⟩ t1 [] "alice" =
      (true, [("alice", (t1, (1 : ℤ)))]) := by
    rw [isAllowed_reset ⟨5, 60⟩ t1 [] "alice" (by norm_num)
        (by simp [lookupD, alookup]; linarith)]
    simp [dget, dset, alookup]
  have f2 : is_allowed ⟨5, 60⟩ t2 [("alice", (t1, (1 : ℤ)))] "alice" =
      (true, [("alice", (t1, (2 : ℤ)))]) := by
    rw [isAllowed_hit ⟨5, 60⟩ t2 [("alice", (t1, (1 : ℤ)))] "alice"
        (by simp [lookupD, alookup]; linarith) (by simp [lookupD, alookup])]
    simp [dget, dset, alookup, lookupD]
  have f3 : is_allowed ⟨5, 60⟩ t3 [("alice", (t1, (2 : ℤ)))] "alice" =
      (true, [("alice", (t1, (3 : ℤ)))]) := by
    rw [isAllowed_hit ⟨5, 60⟩ t3 [("alice", (t1, (2 : ℤ)))] "alice"
        (by simp [lookupD, alookup]; linarith) (by simp [lookupD, alookup])]
    simp [dget, dset, alookup, lookupD]
  have f4 : is_allowed ⟨5, 60⟩ t4 [("alice", (t1, (3 : ℤ)))] "alice" =
      (true, [("alice", (t1, (4 : ℤ)))]) := by
    rw [isAllowed_hit ⟨5, 60⟩ t4 [("alice", (t1, (3 : ℤ)))] "alice"
        (by simp [lookupD, alookup]; linarith) (by simp [lookupD, alookup])]
    simp [dget, dset, alookup, lookupD]
  have f5 : is_allowed ⟨5, 60⟩ t5 [("alice", (t1, (4 : ℤ)))] "alice" =
      (true, [("alice", (t1, (5 : ℤ)))]) := by
    rw [isAllowed_hit ⟨5, 60⟩ t5 [("alice", (t1, (4 : ℤ)))] "alice"
        (by simp [lookupD, alookup]; linarith) (by simp [lookupD, alookup])]
    simp [dget, dset, alookup, lookupD]
  have f6 : is_allowed ⟨5, 60⟩ t6 [("alice", (t1, (5 : ℤ)))] "alice" =
      (false, [("alice", (t1, (5 : ℤ)))]) := by
    rw [isAllowed_deny ⟨5, 60⟩ t6 [("alice", (t1, (5 : ℤ)))] "alice"
        (by simp [lookupD, alookup]; linarith) (by simp [lookupD, alookup])]
    simp [dget, alookup]
  have f7 : is_allowed ⟨5, 60⟩ t7 [("alice", (t1, (5 : ℤ)))] "alice" =
      (false, [("alice", (t1, (5 : ℤ)))]) := by
    rw [isAllowed_deny ⟨5, 60⟩ t7 [("alice", (t1, (5 : ℤ)))] "alice"
        (by simp [lookupD, alookup]; linarith) (by simp [lookupD, alookup])]
    simp [dget, alookup]
  constructor
  · simp [runA, runA_cons, f1, f2, f3, f4, f5, f6, f7]
  · have hs : (runA ⟨5, 60⟩ [("alice", t1), ("alice", t2), ("alice", t3),
        ("alice", t4), ("alice", t5)] []).2 = [("alice", (t1, (5 : ℤ)))] := by
      simp [runA, runA_cons, f1, f2, f3, f4, f5]
    rw [hs]
    unfold get_status
    rw [dget_present _ _ _ (by simp [alookup] : alookup [("alice", (t1, (5 : ℤ)))]
        "alice" = some (t1, (5 : ℤ)))]
    have hnot : ¬ ((⟨5, 60⟩ : Config).windowSize ≤ t5 - t1) := by
      simp only
      intro hc
      linarith
    simp [hnot]

/-- CLAIM C4 witness: the amended statement at the concrete call times
100, 100, 100, 100, 100, 100, 100. -/
theorem spec_c4_witness :
    List.map (fun e => e.2.2)
      (runA ⟨5, 60⟩ [("alice", 100), ("alice", 100), ("alice", 100),
                     ("alice", 100), ("alice", 100), ("alice", 100),
                     ("alice", 100)] []).1 =
      [true, true, true, true, true, false, false] ∧
    (get_status ⟨5, 60⟩ 100
      (runA ⟨5, 60⟩ [("alice", 100), ("alice", 100), ("alice", 100),
                     ("alice", 100), ("alice", 100)] []).2
      "alice").1.requests_remaining = 0 :=
  spec_c4 100 100 100 100 100 100 100 (by norm_num) (by norm_num) (by norm_num)
    (by norm_num) (by norm_num) (by norm_num) (by norm_num) (by norm_num)

end RateLimit
